import Mathlib

/-!
Verification of the S3 restore orchestration engine (`src/src/main.go`)
against its natural-language specification.

The Go program is shallowly embedded below:

* the SQLite table `restore_requests` holds at most one row per request id;
  since every operation of the program works on a single request id, the
  ledger is modelled as an `Option LedgerRow` (the row for that request,
  or `none` when it does not exist);
* `createDBAndRecord` and `updateProcessedPaths` are translated
  statement-by-statement from the source; fallible SQL calls are modelled
  with `Except String`;
* the path restorer `restoreObjectsInPath` is embedded against an abstract
  object store (`StoreBehavior` supplies the results of CopyObject and
  HeadObject; the paginated listing is a list of page results) and records
  the store calls it issues;
* the Slack notification layer (`sendSlackNotification` and the tail of
  `main`) is embedded as a pure state machine over the global
  `messageTimestamp` variable, and as an emission trace for the final
  failed-paths summary and the completion print;
* the concurrent, non-serialized read-modify-write of
  `updateProcessedPaths` (SELECT in one transaction, UPDATE/DELETE in
  another) is embedded by splitting the operation into its snapshot read
  and its write, so that interleavings of two goroutines can be examined.
-/

namespace S3Restore

/-- One row of the `restore_requests` table.  `bucket_paths` is the list of
still-pending paths, `processed_paths` the append-only processed log
(timestamps carry no information used by any claim and are omitted). -/
structure LedgerRow where
  bucket_paths : List String
  processed_paths : List String
  ttl : Int
  deriving DecidableEq

/-- The removal loop of `updateProcessedPaths` (main.go lines 196-201):
remove the first element equal to `p`, leave the rest untouched. -/
def removeFirstMatch (p : String) : List String → List String
  | [] => []
  | x :: xs => if x = p then xs else x :: removeFirstMatch p xs

/-- `createDBAndRecord` (main.go lines 102-174): provision the table, then a
single INSERT of the new row (pending = the input paths, processed = []).
The INSERT fails when a row with the same primary key already exists. -/
def createDBAndRecord (db : Option LedgerRow) (bucketPaths : List String)
    (ttl : Int) : Except String (Option LedgerRow) :=
  match db with
  | some _ => Except.error "failed to insert record"
  | none => Except.ok (some ⟨bucketPaths, [], ttl⟩)

/-- `updateProcessedPaths` (main.go lines 176-292): SELECT the two path
lists (an error when the row does not exist), append the path to
`processed_paths`, remove its first match from `bucket_paths`, UPDATE the
row, and DELETE the row when the remaining pending list is empty. -/
def updateProcessedPaths (db : Option LedgerRow) (processedPath : String) :
    Except String (Option LedgerRow) :=
  match db with
  | none => Except.error "failed to select paths"
  | some row =>
    let pp := row.processed_paths ++ [processedPath]
    let bp := removeFirstMatch processedPath row.bucket_paths
    if bp = [] then Except.ok none
    else Except.ok (some { row with bucket_paths := bp, processed_paths := pp })

/-- Occurrence count in a pending list, matching the equality test used by
the removal loop. -/
def countOcc (p : String) : List String → Nat
  | [] => 0
  | x :: xs => (if x = p then 1 else 0) + countOcc p xs

theorem removeFirstMatch_of_not_mem (p : String) (l : List String)
    (h : p ∉ l) : removeFirstMatch p l = l := by
  induction l with
  | nil => rfl
  | cons x xs ih =>
    have hx : ¬ x = p := fun hxp => h (hxp ▸ List.mem_cons_self x xs)
    simp only [removeFirstMatch, if_neg hx]
    rw [ih (fun hm => h (List.mem_cons_of_mem x hm))]

theorem countOcc_removeFirstMatch (p : String) (l : List String) :
    countOcc p l ≤ countOcc p (removeFirstMatch p l) + 1 := by
  induction l with
  | nil => simp [countOcc, removeFirstMatch]
  | cons x xs ih =>
    by_cases h : x = p
    · simp only [removeFirstMatch, if_pos h, countOcc]
      omega
    · simp only [removeFirstMatch, if_neg h, countOcc]
      omega

theorem removeFirstMatch_sublist (p : String) (l : List String) :
    List.Sublist (removeFirstMatch p l) l := by
  induction l with
  | nil => exact List.Sublist.refl []
  | cons x xs ih =>
    by_cases h : x = p
    · simp only [removeFirstMatch, if_pos h]
      exact List.sublist_cons_self x xs
    · simp only [removeFirstMatch, if_neg h]
      exact List.Sublist.cons₂ x ih

theorem not_mem_removeFirstMatch_self (p : String) (l : List String)
    (h : l.Nodup) : p ∉ removeFirstMatch p l := by
  induction l with
  | nil => simp [removeFirstMatch]
  | cons x xs ih =>
    rw [List.nodup_cons] at h
    by_cases hx : x = p
    · simp only [removeFirstMatch, if_pos hx]
      exact hx ▸ h.1
    · simp only [removeFirstMatch, if_neg hx]
      intro hm
      rcases List.mem_cons.mp hm with h1 | h2
      · exact hx h1.symm
      · exact ih h.2 h2

/-- Claim C3, counterexample: starting from the row whose pending list is
exactly `["p"]`, the first `markProcessed` call for `"p"` empties the
pending list and therefore deletes the row, so the second call for the same
path fails at the SELECT instead of appending `"p"` a second time.  The
claim's quantification over every ledger state is therefore false. -/
theorem markProcessed_twice_after_delete_errors :
    updateProcessedPaths (some (⟨["p"], [], 30⟩ : LedgerRow)) "p" =
      Except.ok none ∧
    updateProcessedPaths (none : Option LedgerRow) "p" =
      Except.error "failed to select paths" :=
  ⟨rfl, rfl⟩

/-- Claim C3 (amended): on a state whose row exists, `markProcessed`
appends the path exactly once to `processed_paths`, removes at most the
first matching occurrence from `bucket_paths` (removing nothing, without
error, when the path is absent), and deletes the row exactly when the
removal empties the pending list; when the first call leaves pending
nonempty, a second call for the same path appends it a second time and
again removes at most one occurrence. -/
theorem markProcessed_twice_amended (row : LedgerRow) (p : String) :
    (updateProcessedPaths (some row) p =
      if removeFirstMatch p row.bucket_paths = [] then Except.ok none
      else Except.ok (some ⟨removeFirstMatch p row.bucket_paths,
        row.processed_paths ++ [p], row.ttl⟩)) ∧
    countOcc p row.bucket_paths ≤
      countOcc p (removeFirstMatch p row.bucket_paths) + 1 ∧
    (p ∉ row.bucket_paths →
      removeFirstMatch p row.bucket_paths = row.bucket_paths) ∧
    (∀ row1, updateProcessedPaths (some row) p = Except.ok (some row1) →
      row1.processed_paths = row.processed_paths ++ [p] ∧
      countOcc p row1.bucket_paths ≤
        countOcc p (removeFirstMatch p row1.bucket_paths) + 1 ∧
      updateProcessedPaths (some row1) p =
        (if removeFirstMatch p row1.bucket_paths = [] then Except.ok none
         else Except.ok (some ⟨removeFirstMatch p row1.bucket_paths,
           row.processed_paths ++ [p, p], row.ttl⟩))) := by
  have hchar : updateProcessedPaths (some row) p =
      if removeFirstMatch p row.bucket_paths = [] then Except.ok none
      else Except.ok (some ⟨removeFirstMatch p row.bucket_paths,
        row.processed_paths ++ [p], row.ttl⟩) := rfl
  refine ⟨hchar, countOcc_removeFirstMatch p row.bucket_paths,
    removeFirstMatch_of_not_mem p row.bucket_paths, ?_⟩
  intro row1 h1
  rw [hchar] at h1
  by_cases hbp : removeFirstMatch p row.bucket_paths = []
  · rw [if_pos hbp] at h1
    exact absurd (Except.ok.inj h1) (by simp)
  · rw [if_neg hbp] at h1
    have hrow1 : row1 = ⟨removeFirstMatch p row.bucket_paths,
        row.processed_paths ++ [p], row.ttl⟩ :=
      (Option.some.inj (Except.ok.inj h1)).symm
    subst hrow1
    refine ⟨rfl, countOcc_removeFirstMatch p _, ?_⟩
    have h2 : updateProcessedPaths
        (some (⟨removeFirstMatch p row.bucket_paths,
          row.processed_paths ++ [p], row.ttl⟩ : LedgerRow)) p =
        if removeFirstMatch p (removeFirstMatch p row.bucket_paths) = []
        then Except.ok none
        else Except.ok (some ⟨removeFirstMatch p
            (removeFirstMatch p row.bucket_paths),
          (row.processed_paths ++ [p]) ++ [p], row.ttl⟩) := rfl
    rw [h2]
    by_cases hbp2 : removeFirstMatch p (removeFirstMatch p row.bucket_paths) = []
    · rw [if_pos hbp2, if_pos hbp2]
    · rw [if_neg hbp2, if_neg hbp2]
      have happ : (row.processed_paths ++ [p]) ++ [p] =
          row.processed_paths ++ [p, p] := by simp
      rw [happ]

/-- Claim C3 witness: the amended statement instantiated on the concrete
row with pending `["q", "p"]`, pushed through to the explicit results of
the two calls. -/
theorem markProcessed_twice_amended_witness :
    updateProcessedPaths (some (⟨["q", "p"], [], 30⟩ : LedgerRow)) "p" =
      Except.ok (some (⟨["q"], ["p"], 30⟩ : LedgerRow)) ∧
    updateProcessedPaths (some (⟨["q"], ["p"], 30⟩ : LedgerRow)) "p" =
      Except.ok (some (⟨["q"], ["p", "p"], 30⟩ : LedgerRow)) := by
  obtain ⟨h1, -, -, h4⟩ :=
    markProcessed_twice_amended (⟨["q", "p"], [], 30⟩ : LedgerRow) "p"
  have e1 : updateProcessedPaths (some (⟨["q", "p"], [], 30⟩ : LedgerRow)) "p" =
      Except.ok (some (⟨["q"], ["p"], 30⟩ : LedgerRow)) := by
    rw [h1]; rfl
  have e2 := (h4 (⟨["q"], ["p"], 30⟩ : LedgerRow) e1).2.2
  refine ⟨e1, ?_⟩
  rw [e2]; rfl

/-- A goroutine's call to `updateProcessedPaths` as the coordinator sees
it: on a SQL error the database is left unchanged (none of the failing
statements mutate the row). -/
def applyCall (db : Option LedgerRow) (p : String) : Option LedgerRow :=
  match updateProcessedPaths db p with
  | Except.ok db2 => db2
  | Except.error _ => db

/-- A sequence of `markProcessed` calls executed one after the other. -/
def runCalls (db : Option LedgerRow) (calls : List String) : Option LedgerRow :=
  calls.foldl applyCall db

/-- Claim C5, counterexample: with the duplicate input path list
`["a/x", "a/x"]`, one `markProcessed` call leaves `"a/x"` both in
`bucket_paths` (the second duplicate) and in `processed_paths`, violating
the disjointness invariant. -/
theorem duplicate_input_breaks_disjointness :
    createDBAndRecord none ["a/x", "a/x"] 30 =
      Except.ok (some (⟨["a/x", "a/x"], [], 30⟩ : LedgerRow)) ∧
    updateProcessedPaths (some (⟨["a/x", "a/x"], [], 30⟩ : LedgerRow)) "a/x" =
      Except.ok (some (⟨["a/x"], ["a/x"], 30⟩ : LedgerRow)) ∧
    "a/x" ∈ (⟨["a/x"], ["a/x"], 30⟩ : LedgerRow).bucket_paths ∧
    "a/x" ∈ (⟨["a/x"], ["a/x"], 30⟩ : LedgerRow).processed_paths := by
  refine ⟨rfl, rfl, ?_, ?_⟩ <;> simp

/-- The inductive invariant behind the amended disjointness claim: the
pending list stays duplicate-free and no processed path remains pending. -/
def goodState : Option LedgerRow → Prop
  | none => True
  | some row => row.bucket_paths.Nodup ∧
      ∀ q ∈ row.processed_paths, q ∉ row.bucket_paths

theorem goodState_applyCall (db : Option LedgerRow) (p : String)
    (h : goodState db) : goodState (applyCall db p) := by
  cases db with
  | none => exact h
  | some row =>
    obtain ⟨hnd, hdisj⟩ := h
    show goodState (applyCall (some row) p)
    unfold applyCall updateProcessedPaths
    by_cases hbp : removeFirstMatch p row.bucket_paths = []
    · simp only [hbp, if_pos rfl]
      trivial
    · simp only [if_neg hbp]
      refine ⟨(removeFirstMatch_sublist p row.bucket_paths).nodup hnd, ?_⟩
      intro q hq
      rcases List.mem_append.mp hq with hq1 | hq2
      · intro hmem
        exact hdisj q hq1
          ((removeFirstMatch_sublist p row.bucket_paths).subset hmem)
      · rw [List.mem_singleton.mp hq2]
        exact not_mem_removeFirstMatch_self p row.bucket_paths hnd

theorem goodState_runCalls (calls : List String) :
    ∀ db, goodState db → goodState (runCalls db calls) := by
  induction calls with
  | nil => intro db h; exact h
  | cons c cs ih =>
    intro db h
    exact ih (applyCall db c) (goodState_applyCall db c h)

/-- Claim C5 (amended): for every run whose initial input path list is
duplicate-free, every ledger state reachable from the freshly created row
by a sequence of `markProcessed` calls keeps `pending_paths` and
`processed_paths` disjoint. -/
theorem disjoint_of_nodup_input (paths : List String) (ttl : Int)
    (db0 : Option LedgerRow)
    (hcreate : createDBAndRecord none paths ttl = Except.ok db0)
    (hnd : paths.Nodup) (calls : List String) (row : LedgerRow)
    (hrun : runCalls db0 calls = some row) :
    ∀ q ∈ row.processed_paths, q ∉ row.bucket_paths := by
  have hdb0 : db0 = some (⟨paths, [], ttl⟩ : LedgerRow) :=
    (Except.ok.inj hcreate).symm
  subst hdb0
  have hgood0 : goodState (some (⟨paths, [], ttl⟩ : LedgerRow)) := by
    refine ⟨hnd, ?_⟩
    intro q hq
    simp at hq
  have hgood := goodState_runCalls calls _ hgood0
  rw [hrun] at hgood
  exact hgood.2

/-- Claim C5 witness: the amended theorem applied to the duplicate-free
input `["a", "b"]` after processing `"a"`. -/
theorem disjoint_of_nodup_input_witness :
    ("a" : String) ∉ (⟨["b"], ["a"], 30⟩ : LedgerRow).bucket_paths := by
  have h := disjoint_of_nodup_input ["a", "b"] 30
    (some (⟨["a", "b"], [], 30⟩ : LedgerRow)) rfl (by decide)
    ["a"] (⟨["b"], ["a"], 30⟩ : LedgerRow) rfl
  exact h "a" (by simp)

/-- `create` followed by one `markProcessed` per listed path, in order:
the round trip of the spec. -/
def markAll (db : Option LedgerRow) : List String → Except String (Option LedgerRow)
  | [] => Except.ok db
  | p :: ps =>
    match updateProcessedPaths db p with
    | Except.ok db2 => markAll db2 ps
    | Except.error e => Except.error e

/-- Claim C6, counterexample: with the empty path list, `create` inserts a
row whose pending list is empty and the round trip performs no
`markProcessed` call at all, so the row is left behind (deletion only
happens inside `updateProcessedPaths`). -/
theorem empty_path_list_leaves_row :
    createDBAndRecord none [] 30 =
      Except.ok (some (⟨[], [], 30⟩ : LedgerRow)) ∧
    markAll (some (⟨[], [], 30⟩ : LedgerRow)) [] =
      Except.ok (some (⟨[], [], 30⟩ : LedgerRow)) ∧
    (some (⟨[], [], 30⟩ : LedgerRow)) ≠ (none : Option LedgerRow) := by
  refine ⟨rfl, rfl, by simp⟩

theorem markAll_deletes (l : List String) :
    ∀ pp : List String, ∀ ttl : Int, l ≠ [] →
      markAll (some (⟨l, pp, ttl⟩ : LedgerRow)) l = Except.ok none := by
  induction l with
  | nil => intro pp ttl h; exact absurd rfl h
  | cons p ps ih =>
    intro pp ttl _
    cases ps with
    | nil =>
      show markAll (some (⟨[p], pp, ttl⟩ : LedgerRow)) [p] = Except.ok none
      have h1 : updateProcessedPaths (some (⟨[p], pp, ttl⟩ : LedgerRow)) p =
          Except.ok none := by
        unfold updateProcessedPaths
        simp [removeFirstMatch]
      unfold markAll
      rw [h1]
      rfl
    | cons q qs =>
      have h1 : updateProcessedPaths
          (some (⟨p :: q :: qs, pp, ttl⟩ : LedgerRow)) p =
          Except.ok (some (⟨q :: qs, pp ++ [p], ttl⟩ : LedgerRow)) := by
        unfold updateProcessedPaths
        simp [removeFirstMatch]
      unfold markAll
      rw [h1]
      exact ih (pp ++ [p]) ttl (by simp)

/-- Claim C6 (amended): for every nonempty path list, `create` followed by
`markProcessed` for every path of the list in order deletes the row — the
call that empties `pending_paths` is the one that deletes the record. -/
theorem create_then_markAll_deletes_row (paths : List String) (ttl : Int)
    (db0 : Option LedgerRow) (hne : paths ≠ [])
    (hcreate : createDBAndRecord none paths ttl = Except.ok db0) :
    markAll db0 paths = Except.ok none := by
  have hdb0 : db0 = some (⟨paths, [], ttl⟩ : LedgerRow) :=
    (Except.ok.inj hcreate).symm
  subst hdb0
  exact markAll_deletes paths [] ttl hne

/-- Claim C6 witness: the amended round trip on the concrete list
`["a/x", "a/y"]`. -/
theorem create_then_markAll_deletes_row_witness :
    markAll (some (⟨["a/x", "a/y"], [], 30⟩ : LedgerRow)) ["a/x", "a/y"] =
      Except.ok none :=
  create_then_markAll_deletes_row ["a/x", "a/y"] 30
    (some (⟨["a/x", "a/y"], [], 30⟩ : LedgerRow)) (by simp) rfl

/-- The storage class constant `types.ObjectStorageClassStandard` compared
against by the restorer loop, and the target class written and verified by
`restoreObject`. -/
def objectStorageClassStandard : String := "STANDARD"

/-- One listed object: its key and the storage class reported by the
listing. -/
structure S3Object where
  key : String
  storageClass : String
  deriving DecidableEq

/-- A call issued to the object store, as recorded by the embedding. -/
inductive StoreCall where
  | listPage (bucket pfx : String)
  | copy (bucket key : String)
  | head (bucket key : String)
  deriving DecidableEq

/-- The abstract object store: the outcomes the store returns for
CopyObject and HeadObject (HeadObject yields the storage class it
reports). -/
structure StoreBehavior where
  copyResult : String → String → Except String Unit
  headResult : String → String → Except String String

/-- `strings.SplitN(bucketPath, "/", 2)` restricted to its two shapes:
`none` when the string has no separator (the `len(parts) < 2` branch),
otherwise the bucket (before the first separator) and the rest. -/
def splitN2Chars : List Char → Option (List Char × List Char)
  | [] => none
  | c :: cs =>
    if c = '/' then some ([], cs)
    else
      match splitN2Chars cs with
      | none => none
      | some (bkt, rest) => some (c :: bkt, rest)

/-- Split a bucket path into bucket name and key prefix at the first
separator (main.go lines 335-341). -/
def splitBucketPath (s : String) : Option (String × String) :=
  match splitN2Chars s.data with
  | none => none
  | some (bkt, rest) => some (String.mk bkt, String.mk rest)

/-- `restoreObject` (main.go lines 294-325): issue the CopyObject with
target class STANDARD, then HeadObject, and fail unless the reported class
reads exactly STANDARD.  Returns the outcome together with the store calls
issued. -/
def restoreObject (b : StoreBehavior) (bucketName key : String) :
    Except String Unit × List StoreCall :=
  match b.copyResult bucketName key with
  | Except.error e =>
    (Except.error ("failed to restore object " ++ key ++ ": " ++ e),
      [StoreCall.copy bucketName key])
  | Except.ok _ =>
    match b.headResult bucketName key with
    | Except.error e =>
      (Except.error ("failed to verify storage class for object " ++ key ++
          ": " ++ e),
        [StoreCall.copy bucketName key, StoreCall.head bucketName key])
    | Except.ok sc =>
      if sc = "" ∨ sc ≠ objectStorageClassStandard then
        (Except.error ("storage class for object " ++ key ++
            " is not STANDARD"),
          [StoreCall.copy bucketName key, StoreCall.head bucketName key])
      else (Except.ok (), [StoreCall.copy bucketName key,
        StoreCall.head bucketName key])

/-- The guard of the restorer loop (main.go line 371): attempt a restore
exactly when the listed storage class differs from the STANDARD
constant. -/
def shouldAttemptRestore (obj : S3Object) : Bool :=
  obj.storageClass ≠ objectStorageClassStandard

/-- One iteration of the inner loop (main.go lines 370-380): a qualifying
object is restored and its error, if any, is logged and swallowed; a
STANDARD object is skipped. -/
def processObject (b : StoreBehavior) (bucketName : String) (obj : S3Object) :
    List StoreCall :=
  if shouldAttemptRestore obj then (restoreObject b bucketName obj.key).2
  else []

/-- The pagination loop (main.go lines 362-381): pages are consumed in
order; a failing page aborts the path (first component `true`), and every
page fetch and object call is recorded. -/
def processPages (b : StoreBehavior) (bucketName pfx : String) :
    List (Except String (List S3Object)) → Bool × List StoreCall
  | [] => (false, [])
  | Except.error _ :: _ => (true, [StoreCall.listPage bucketName pfx])
  | Except.ok contents :: rest =>
    let objCalls := (contents.map (processObject b bucketName)).flatten
    let r := processPages b bucketName pfx rest
    (r.1, StoreCall.listPage bucketName pfx :: objCalls ++ r.2)

/-- Outcome of one path restorer: the store calls issued, whether the path
was appended to `failedPaths`, whether `updateProcessedPaths` was invoked,
and the resulting ledger. -/
structure PathRunOutcome where
  calls : List StoreCall
  failed : Bool
  marked : Bool
  db : Option LedgerRow
  deriving DecidableEq

/-- `restoreObjectsInPath` (main.go lines 327-388): a path without a
separator fails immediately; otherwise the listing is paged through and,
when it is exhausted, the path is reported to the ledger; a ledger error
marks the path failed. -/
def restoreObjectsInPath (b : StoreBehavior)
    (pages : List (Except String (List S3Object))) (db : Option LedgerRow)
    (bucketPath : String) : PathRunOutcome :=
  match splitBucketPath bucketPath with
  | none => ⟨[], true, false, db⟩
  | some (bucketName, pfx) =>
    let r := processPages b bucketName pfx pages
    if r.1 then ⟨r.2, true, false, db⟩
    else
      match updateProcessedPaths db bucketPath with
      | Except.ok db2 => ⟨r.2, false, true, db2⟩
      | Except.error _ => ⟨r.2, true, true, db⟩

/-- A store on which every copy and every verification succeeds. -/
def alwaysOkStore : StoreBehavior :=
  ⟨fun _ _ => Except.ok (), fun _ _ => Except.ok objectStorageClassStandard⟩

/-- A store on which every copy call fails. -/
def alwaysFailStore : StoreBehavior :=
  ⟨fun _ _ => Except.error "copy failed", fun _ _ => Except.error "head failed"⟩

theorem splitN2Chars_eq_none (cs : List Char) (h : ∀ c ∈ cs, c ≠ '/') :
    splitN2Chars cs = none := by
  induction cs with
  | nil => rfl
  | cons c cs2 ih =>
    have hc : ¬ c = '/' := h c (List.mem_cons_self c cs2)
    simp only [splitN2Chars, if_neg hc]
    rw [ih (fun d hd => h d (List.mem_cons_of_mem c hd))]

/-- Claim C7: a path string containing no separator makes the restorer
return with no store call at all (no listing, no copy, no head), with the
whole path recorded as failed, the ledger untouched and `markProcessed`
never invoked. -/
theorem invalid_path_fails_without_store_calls (b : StoreBehavior)
    (pages : List (Except String (List S3Object))) (db : Option LedgerRow)
    (s : String) (h : ∀ c ∈ s.data, c ≠ '/') :
    restoreObjectsInPath b pages db s = ⟨[], true, false, db⟩ := by
  unfold restoreObjectsInPath splitBucketPath
  rw [splitN2Chars_eq_none s.data h]

/-- Claim C7 witness: the separator-free path `"bad"` on a fresh ledger. -/
theorem invalid_path_witness :
    restoreObjectsInPath alwaysOkStore [] none "bad" = ⟨[], true, false, none⟩ :=
  invalid_path_fails_without_store_calls alwaysOkStore [] none "bad" (by decide)

theorem copy_mem_restoreObject (b : StoreBehavior) (bn k : String) :
    StoreCall.copy bn k ∈ (restoreObject b bn k).2 := by
  unfold restoreObject
  cases b.copyResult bn k with
  | error e => simp
  | ok u =>
    cases b.headResult bn k with
    | error e => simp
    | ok sc =>
      dsimp only
      by_cases h : sc = "" ∨ sc ≠ objectStorageClassStandard
      · rw [if_pos h]; simp
      · rw [if_neg h]; simp

theorem copy_mem_processObject (b : StoreBehavior) (bn : String)
    (obj : S3Object) (hsc : obj.storageClass ≠ objectStorageClassStandard) :
    StoreCall.copy bn obj.key ∈ processObject b bn obj := by
  have hg : shouldAttemptRestore obj = true := by
    simp only [shouldAttemptRestore, decide_eq_true_eq]
    exact hsc
  rw [processObject, if_pos hg]
  exact copy_mem_restoreObject b bn obj.key

theorem processPages_fst_false (b : StoreBehavior) (bn pfx : String)
    (pages : List (Except String (List S3Object)))
    (hpages : ∀ pg ∈ pages, ∃ c, pg = Except.ok c) :
    (processPages b bn pfx pages).1 = false := by
  induction pages with
  | nil => rfl
  | cons pg rest ih =>
    obtain ⟨c, hc⟩ := hpages pg (List.mem_cons_self pg rest)
    subst hc
    simp only [processPages]
    exact ih (fun q hq => hpages q (List.mem_cons_of_mem _ hq))

theorem copy_mem_processPages (b : StoreBehavior) (bn pfx : String)
    (pages : List (Except String (List S3Object)))
    (hpages : ∀ pg ∈ pages, ∃ c, pg = Except.ok c)
    (contents : List S3Object) (obj : S3Object)
    (hpg : Except.ok contents ∈ pages) (hobj : obj ∈ contents)
    (hsc : obj.storageClass ≠ objectStorageClassStandard) :
    StoreCall.copy bn obj.key ∈ (processPages b bn pfx pages).2 := by
  induction pages with
  | nil => cases hpg
  | cons pg rest ih =>
    obtain ⟨c, hc⟩ := hpages pg (List.mem_cons_self pg rest)
    subst hc
    have hsnd : (processPages b bn pfx (Except.ok c :: rest)).2 =
        StoreCall.listPage bn pfx ::
          ((c.map (processObject b bn)).flatten ++
            (processPages b bn pfx rest).2) := rfl
    rw [hsnd]
    rcases List.mem_cons.mp hpg with hhead | htail
    · have hcont : contents = c := Except.ok.inj hhead
      subst hcont
      exact List.mem_cons_of_mem _ (List.mem_append.mpr (Or.inl
        (List.mem_flatten.mpr ⟨processObject b bn obj,
          List.mem_map_of_mem (processObject b bn) hobj,
          copy_mem_processObject b bn obj hsc⟩)))
    · exact List.mem_cons_of_mem _ (List.mem_append.mpr (Or.inr
        (ih (fun q hq => hpages q (List.mem_cons_of_mem _ hq)) htail)))

/-- Claim C8: when the path is well-formed and every page of the listing
succeeds, the restorer reports the path to the ledger regardless of how
many per-object restores failed (the behavior `b` is arbitrary, so every
copy and every verification may fail): `markProcessed` is invoked, the
path is failed only when the ledger update itself errors, and every
object outside STANDARD still gets its copy call attempted. -/
theorem object_failures_swallowed_path_processed (b : StoreBehavior)
    (pages : List (Except String (List S3Object))) (db : Option LedgerRow)
    (path bn pfx : String)
    (hsplit : splitBucketPath path = some (bn, pfx))
    (hpages : ∀ pg ∈ pages, ∃ c, pg = Except.ok c) :
    (restoreObjectsInPath b pages db path).marked = true ∧
    (∀ db2, updateProcessedPaths db path = Except.ok db2 →
      (restoreObjectsInPath b pages db path).failed = false ∧
      (restoreObjectsInPath b pages db path).db = db2) ∧
    (∀ contents obj, Except.ok contents ∈ pages → obj ∈ contents →
      obj.storageClass ≠ objectStorageClassStandard →
      StoreCall.copy bn obj.key ∈ (restoreObjectsInPath b pages db path).calls) := by
  have hfst := processPages_fst_false b bn pfx pages hpages
  have hrun : restoreObjectsInPath b pages db path =
      match updateProcessedPaths db path with
      | Except.ok db2 => ⟨(processPages b bn pfx pages).2, false, true, db2⟩
      | Except.error _ => ⟨(processPages b bn pfx pages).2, true, true, db⟩ := by
    unfold restoreObjectsInPath
    rw [hsplit]
    simp only [hfst, Bool.false_eq_true, if_false]
  refine ⟨?_, ?_, ?_⟩
  · rw [hrun]
    cases updateProcessedPaths db path <;> rfl
  · intro db2 hdb2
    rw [hrun, hdb2]
    exact ⟨rfl, rfl⟩
  · intro contents obj hpg hobj hsc
    rw [hrun]
    have hmem := copy_mem_processPages b bn pfx pages hpages contents obj
      hpg hobj hsc
    cases updateProcessedPaths db path <;> exact hmem

/-- Claim C8 witness: a two-object page on the store whose every copy
fails; the path is still marked processed and the second object's copy is
attempted after the first one failed. -/
theorem object_failures_swallowed_witness :
    (restoreObjectsInPath alwaysFailStore
      [Except.ok [⟨"k1", "GLACIER"⟩, ⟨"k2", "GLACIER"⟩]]
      (some (⟨["a/x"], [], 30⟩ : LedgerRow)) "a/x").marked = true ∧
    StoreCall.copy "a" "k2" ∈ (restoreObjectsInPath alwaysFailStore
      [Except.ok [⟨"k1", "GLACIER"⟩, ⟨"k2", "GLACIER"⟩]]
      (some (⟨["a/x"], [], 30⟩ : LedgerRow)) "a/x").calls := by
  have h := object_failures_swallowed_path_processed alwaysFailStore
    [Except.ok [⟨"k1", "GLACIER"⟩, ⟨"k2", "GLACIER"⟩]]
    (some (⟨["a/x"], [], 30⟩ : LedgerRow)) "a/x" "a" "x"
    (by decide)
    (by
      intro pg hpg
      rw [List.mem_singleton] at hpg
      exact ⟨_, hpg⟩)
  exact ⟨h.1, h.2.2 [⟨"k1", "GLACIER"⟩, ⟨"k2", "GLACIER"⟩] ⟨"k2", "GLACIER"⟩
    (by simp) (by simp) (by decide)⟩

/-- Claim C2, counterexample: the loop guard compiles to "storage class
differs from STANDARD", so objects in two distinct non-standard tiers are
both sent to the copy operation; hence no single deprecated-tier constant
can make "copy issued iff tier equals that constant" true, and an object
in a non-deprecated, non-standard tier such as REDUCED_REDUNDANCY is not
left untouched. -/
theorem tier_guard_not_single_constant :
    shouldAttemptRestore ⟨"k", "GLACIER"⟩ = true ∧
    shouldAttemptRestore ⟨"k", "REDUCED_REDUNDANCY"⟩ = true ∧
    StoreCall.copy "b" "k" ∈ (restoreObjectsInPath alwaysOkStore
      [Except.ok [⟨"k", "REDUCED_REDUNDANCY"⟩]] none "b/p").calls ∧
    ¬ ∃ deprecatedTier : String, ∀ obj : S3Object,
        shouldAttemptRestore obj = true ↔ obj.storageClass = deprecatedTier := by
  refine ⟨rfl, rfl, by decide, ?_⟩
  rintro ⟨d, hd⟩
  have h1 : ("GLACIER" : String) = d :=
    (hd ⟨"k", "GLACIER"⟩).mp (by decide)
  have h2 : ("REDUCED_REDUNDANCY" : String) = d :=
    (hd ⟨"k", "REDUCED_REDUNDANCY"⟩).mp (by decide)
  exact absurd (h1.trans h2.symm) (by decide)

/-- Claim C2 (amended): for a listed object the restorer issues the
tier-change copy operation if and only if the object's reported storage
class differs (case-sensitively) from the STANDARD constant; every
non-standard class is attempted, a STANDARD object is left untouched. -/
theorem copy_issued_iff_not_standard (b : StoreBehavior)
    (db : Option LedgerRow) (path bn pfx : String) (obj : S3Object)
    (hsplit : splitBucketPath path = some (bn, pfx)) :
    (StoreCall.copy bn obj.key ∈
        (restoreObjectsInPath b [Except.ok [obj]] db path).calls) ↔
      obj.storageClass ≠ objectStorageClassStandard := by
  have hpp : processPages b bn pfx [Except.ok [obj]] =
      (false, StoreCall.listPage bn pfx :: processObject b bn obj) := by
    simp [processPages]
  have hcalls : (restoreObjectsInPath b [Except.ok [obj]] db path).calls =
      StoreCall.listPage bn pfx :: processObject b bn obj := by
    unfold restoreObjectsInPath
    rw [hsplit]
    simp only [hpp]
    cases updateProcessedPaths db path <;> rfl
  rw [hcalls]
  constructor
  · intro hmem
    rcases List.mem_cons.mp hmem with hbad | hIn
    · cases hbad
    · intro heq
      have hg : shouldAttemptRestore obj = false := by
        simp only [shouldAttemptRestore, heq]
        decide
      rw [processObject, hg] at hIn
      simp at hIn
  · intro hne
    exact List.mem_cons_of_mem _ (copy_mem_processObject b bn obj hne)

/-- Claim C2 witness: the amended equivalence on a concrete GLACIER object
under the path `"b/p"`. -/
theorem copy_issued_iff_not_standard_witness :
    (StoreCall.copy "b" "k1" ∈
        (restoreObjectsInPath alwaysOkStore
          [Except.ok [⟨"k1", "GLACIER"⟩]] none "b/p").calls) ↔
      ("GLACIER" : String) ≠ objectStorageClassStandard :=
  copy_issued_iff_not_standard alwaysOkStore none "b/p" "b" "p"
    ⟨"k1", "GLACIER"⟩ (by decide)

/-- What the Slack API would answer to one PostMessage attempt: success
carries the timestamp of the posted message. -/
inductive PostResult where
  | success (newTimestamp : String)
  | failure
  deriving DecidableEq

/-- How a notification attempt is addressed: a brand-new message, or an
in-place update of the message with the given timestamp (the
`MsgOptionUpdate` branch of main.go lines 85-87). -/
inductive SentKind where
  | newMessage
  | updateOf (ts : String)
  deriving DecidableEq

/-- The global `messageTimestamp` variable (main.go line 56). -/
structure SlackState where
  messageTimestamp : String
  deriving DecidableEq

/-- `sendSlackNotification` (main.go lines 69-100): when the global
timestamp is nonempty the message is posted as an update of it; on a
successful post the timestamp is assigned only if it was still empty. -/
def sendSlackNotification (st : SlackState) (r : PostResult) :
    SlackState × SentKind :=
  let kind := if st.messageTimestamp = "" then SentKind.newMessage
    else SentKind.updateOf st.messageTimestamp
  match r with
  | PostResult.failure => (st, kind)
  | PostResult.success newTs =>
    (if st.messageTimestamp = "" then ⟨newTs⟩ else st, kind)

/-- A sequence of notification attempts by the program's components,
threaded through the global timestamp state; yields the final state and
how each attempt was addressed. -/
def runSlack (st : SlackState) : List PostResult → SlackState × List SentKind
  | [] => (st, [])
  | r :: rs =>
    let s1 := sendSlackNotification st r
    let s2 := runSlack s1.1 rs
    (s2.1, s1.2 :: s2.2)

theorem runSlack_after_set (ts0 : String) (h0 : ts0 ≠ "")
    (post : List PostResult) :
    runSlack ⟨ts0⟩ post =
      (⟨ts0⟩, post.map (fun _ => SentKind.updateOf ts0)) := by
  induction post with
  | nil => rfl
  | cons r rs ih =>
    cases r with
    | success newTs =>
      simp only [runSlack, sendSlackNotification, if_neg h0, ih, List.map]
    | failure =>
      simp only [runSlack, sendSlackNotification, if_neg h0, ih, List.map]

/-- Claim C10: once the first successful post returns a timestamp, the
global `messageTimestamp` is set to it and never changes again, and every
later notification attempt, from whatever component, is addressed as an
in-place update of that first message; the attempts before the first
success (token missing or API failure) were addressed as new messages. -/
theorem messageTimestamp_set_once_then_updates (pre post : List PostResult)
    (ts0 : String) (h0 : ts0 ≠ "")
    (hpre : ∀ r ∈ pre, r = PostResult.failure) :
    runSlack ⟨""⟩ (pre ++ PostResult.success ts0 :: post) =
      (⟨ts0⟩, List.replicate (pre.length + 1) SentKind.newMessage ++
        post.map (fun _ => SentKind.updateOf ts0)) := by
  induction pre with
  | nil =>
    have h1 : sendSlackNotification ⟨""⟩ (PostResult.success ts0) =
        (⟨ts0⟩, SentKind.newMessage) := by
      simp [sendSlackNotification]
    simp [runSlack, h1, runSlack_after_set ts0 h0 post, List.replicate]
  | cons r rs ih =>
    have hr : r = PostResult.failure := hpre r (List.mem_cons_self r rs)
    subst hr
    have hih := ih (fun q hq => hpre q (List.mem_cons_of_mem _ hq))
    have h1 : sendSlackNotification ⟨""⟩ PostResult.failure =
        (⟨""⟩, SentKind.newMessage) := by
      simp [sendSlackNotification]
    simp [runSlack, h1, hih, List.replicate_succ]

/-- Claim C10 witness: a failed first attempt, the first successful post
(timestamp "111"), then a failure and another success; both later attempts
update the first message and the stored timestamp stays "111". -/
theorem messageTimestamp_witness :
    runSlack ⟨""⟩ ([PostResult.failure] ++ PostResult.success "111" ::
        [PostResult.failure, PostResult.success "222"]) =
      (⟨"111"⟩, List.replicate (List.length [PostResult.failure] + 1)
          SentKind.newMessage ++
        [PostResult.failure, PostResult.success "222"].map
          (fun _ => SentKind.updateOf "111")) :=
  messageTimestamp_set_once_then_updates [PostResult.failure]
    [PostResult.failure, PostResult.success "222"] "111" (by decide) (by decide)

/-- An output of the coordinator's tail: a Slack post through the notifier
or a plain print to standard output. -/
inductive Emission where
  | slackPost (text : String)
  | stdoutPrint (text : String)
  deriving DecidableEq

def isSlackEmission : Emission → Bool
  | Emission.slackPost _ => true
  | Emission.stdoutPrint _ => false

/-- `json.Marshal` of a list of plain path strings (none of the inputs
relevant here needs JSON escaping, which is therefore elided). -/
def jsonMarshalStrings (l : List String) : String :=
  "[" ++ String.intercalate "," (l.map (fun s => "\"" ++ s ++ "\"")) ++ "]"

/-- The failed-paths summary text (main.go line 497). -/
def failedSummaryMessage (requestID : String) (failedPaths : List String) :
    String :=
  ":x: *The following paths failed to be processed for Request ID:* *" ++
    requestID ++ "*\n*Failed Paths:* `" ++ jsonMarshalStrings failedPaths ++
    "`\n"

/-- The completion text printed by `fmt.Printf` (main.go line 509). -/
def completedMessage (requestID : String) : String :=
  ":white_check_mark: *Restore process completed for Request ID:* *" ++
    requestID ++ "*\n"

/-- The tail of `main` after the join (main.go lines 493-510): one Slack
summary when `failedPaths` is nonempty, then the completion line printed
to standard output. -/
def finalizeRun (requestID : String) (failedPaths : List String) :
    List Emission :=
  (if failedPaths.length > 0 then
    [Emission.slackPost (failedSummaryMessage requestID failedPaths)]
  else []) ++
  [Emission.stdoutPrint (completedMessage requestID)]

/-- Claim C9, counterexample: on a run with no failed paths the
coordinator's tail emits nothing through the notifier at all — the final
"request completed" message is only printed to standard output, so no
completion notification goes through the notifier. -/
theorem completion_not_through_notifier :
    (finalizeRun "r1" []).filter isSlackEmission = [] ∧
    finalizeRun "r1" [] = [Emission.stdoutPrint (completedMessage "r1")] :=
  ⟨rfl, rfl⟩

/-- Claim C9 (amended): after the join the coordinator always ends with
the completion message for the request id, printed to standard output (not
sent through the notifier); when the failed-path list is nonempty it first
emits exactly one notifier summary naming the request id and the failed
paths, and that summary is the only notifier emission. -/
theorem finalize_emissions_amended (requestID : String)
    (failedPaths : List String) :
    (finalizeRun requestID failedPaths).getLast? =
      some (Emission.stdoutPrint (completedMessage requestID)) ∧
    (failedPaths = [] → finalizeRun requestID failedPaths =
      [Emission.stdoutPrint (completedMessage requestID)]) ∧
    (failedPaths ≠ [] → finalizeRun requestID failedPaths =
      [Emission.slackPost (failedSummaryMessage requestID failedPaths),
       Emission.stdoutPrint (completedMessage requestID)]) ∧
    (∃ a b, failedSummaryMessage requestID failedPaths =
      a ++ requestID ++ b ++ jsonMarshalStrings failedPaths ++ "`\n") ∧
    (∃ c, completedMessage requestID = c ++ requestID ++ "*\n") := by
  refine ⟨?_, ?_, ?_, ?_, ?_⟩
  · cases failedPaths with
    | nil => rfl
    | cons p ps =>
      show (finalizeRun requestID (p :: ps)).getLast? = _
      unfold finalizeRun
      rw [if_pos (show (p :: ps).length > 0 from Nat.succ_pos ps.length)]
      rfl
  · intro h
    subst h
    rfl
  · intro h
    cases failedPaths with
    | nil => exact absurd rfl h
    | cons p ps =>
      show finalizeRun requestID (p :: ps) = _
      unfold finalizeRun
      rw [if_pos (show (p :: ps).length > 0 from Nat.succ_pos ps.length)]
      rfl
  · exact ⟨":x: *The following paths failed to be processed for Request ID:* *",
      "*\n*Failed Paths:* `", rfl⟩
  · exact ⟨":white_check_mark: *Restore process completed for Request ID:* *",
      rfl⟩

/-- Claim C9 witness: a run with request id "r2" and the single failed
path "bad"; the notifier summary precedes the stdout completion line. -/
theorem finalize_emissions_witness :
    finalizeRun "r2" ["bad"] =
      [Emission.slackPost (failedSummaryMessage "r2" ["bad"]),
       Emission.stdoutPrint (completedMessage "r2")] :=
  (finalize_emissions_amended "r2" ["bad"]).2.2.1 (by simp)

/-- The SELECT of `updateProcessedPaths` (main.go lines 185-189) taken as
an isolated step: the snapshot of the two path lists a goroutine reads
before computing its mutation.  SQLite runs each statement in its own
transaction, so between this read and the later write another goroutine's
statements may be interleaved. -/
def updateSnapshotRead (db : Option LedgerRow) :
    Option (List String × List String) :=
  match db with
  | none => none
  | some row => some (row.bucket_paths, row.processed_paths)

/-- The UPDATE plus conditional DELETE of `updateProcessedPaths` (main.go
lines 195-289) taken as an isolated step, applied to a previously read
snapshot: the stored lists are overwritten with the lists computed from
the snapshot, and the row is deleted when the computed pending list is
empty. -/
def updateWrite (db : Option LedgerRow) (snap : List String × List String)
    (p : String) : Option LedgerRow :=
  let bp := removeFirstMatch p snap.1
  let pp := snap.2 ++ [p]
  match db with
  | none => none
  | some row =>
    if bp = [] then none
    else some { row with bucket_paths := bp, processed_paths := pp }

/-- Serialized read-then-write is exactly `updateProcessedPaths`: the
split model refines the atomic one when no other goroutine interleaves. -/
theorem updateWrite_after_read_serialized (db : Option LedgerRow)
    (p : String) :
    (match updateSnapshotRead db with
     | none => Except.error "failed to select paths"
     | some snap => Except.ok (updateWrite db snap p)) =
      updateProcessedPaths db p := by
  cases db with
  | none => rfl
  | some row =>
    show Except.ok (updateWrite (some row)
      (row.bucket_paths, row.processed_paths) p) =
      updateProcessedPaths (some row) p
    have h1 : updateWrite (some row)
        (row.bucket_paths, row.processed_paths) p =
        if removeFirstMatch p row.bucket_paths = [] then none
        else some ⟨removeFirstMatch p row.bucket_paths,
          row.processed_paths ++ [p], row.ttl⟩ := rfl
    have h2 : updateProcessedPaths (some row) p =
        if removeFirstMatch p row.bucket_paths = [] then Except.ok none
        else Except.ok (some ⟨removeFirstMatch p row.bucket_paths,
          row.processed_paths ++ [p], row.ttl⟩) := rfl
    rw [h1, h2]
    by_cases h : removeFirstMatch p row.bucket_paths = []
    · rw [if_pos h, if_pos h]
    · rw [if_neg h, if_neg h]

/-- Two goroutines of the same request finish their paths concurrently:
both SELECT the same state, then both run their UPDATE.  This is the
interleaving read-read-write-write that the missing critical section
permits. -/
def racedTwoUpdates (db0 : Option LedgerRow) (p1 p2 : String) :
    Option LedgerRow :=
  match updateSnapshotRead db0 with
  | none => db0
  | some snap1 =>
    match updateSnapshotRead db0 with
    | none => db0
    | some snap2 =>
      let db1 := updateWrite db0 snap1 p1
      updateWrite db1 snap2 p2

/-- Claim C4 (code bug): with pending `["a/x", "a/y"]`, two concurrent
`markProcessed` calls whose SELECTs both run before either UPDATE leave
the row at pending `["a/x"]` — the removal of "a/x" is lost and the row is
never deleted, although the serialized order of the same two calls would
have deleted it.  No critical section in the code prevents this
schedule. -/
theorem concurrent_updates_lose_removal :
    racedTwoUpdates (some (⟨["a/x", "a/y"], [], 30⟩ : LedgerRow))
      "a/x" "a/y" = some (⟨["a/x"], ["a/y"], 30⟩ : LedgerRow) ∧
    updateProcessedPaths (some (⟨["a/y"], ["a/x"], 30⟩ : LedgerRow)) "a/y" =
      Except.ok none :=
  ⟨rfl, rfl⟩

/-- Claim C1 (code bug): a run over the valid inputs `["a/x", "a/y"]` in
which both listings succeed and both restorers reach their ledger update,
but the two updates interleave read-read-write-write, ends with no
path-level failure yet a surviving row whose `pending_paths` is
`["a/x"]` — not the (empty) set of failed paths. -/
theorem ledger_postcondition_fails_under_interleaving :
    createDBAndRecord none ["a/x", "a/y"] 30 =
      Except.ok (some (⟨["a/x", "a/y"], [], 30⟩ : LedgerRow)) ∧
    racedTwoUpdates (some (⟨["a/x", "a/y"], [], 30⟩ : LedgerRow))
      "a/x" "a/y" = some (⟨["a/x"], ["a/y"], 30⟩ : LedgerRow) ∧
    (⟨["a/x"], ["a/y"], 30⟩ : LedgerRow).bucket_paths ≠ ([] : List String) :=
  ⟨rfl, rfl, by simp⟩

end S3Restore
